import Mathlib

/-!
# eTuckShop orders API — verification development

Shallow embedding of the orders route handler (`src/app/api/orders/route.ts`,
the full version with authentication and inventory logic) together with the
pieces of the data model it manipulates (`types/Order.ts`, the inventory
status type from the inventory route).

Modelling conventions:
* Firestore documents become Lean structures; document fields that the code
  reads through `?? default` are `Option` fields and the defaults are applied
  at the read sites, exactly as in the source.
* JavaScript numbers carrying quantities, prices and ids become `Int`.
* The inventory collection is an association list from item id to record;
  a Firestore `WriteBatch` becomes an explicit list of staged updates that is
  applied to the store only when the source calls `batch.commit()`.  Whether a
  commit succeeds is an environment input (`commitOk : Bool`); Firestore
  batches are atomic, so a failed commit leaves the store unchanged.
* The session verification (`verifyAuth`) resolves to a `{uid, role}` value;
  the handlers are modelled as functions of that caller identity.
* `console.log` / `console.warn` output is collected in a log list where a
  claim depends on it; `lastUpdated` timestamps and `OrderTime` (server real
  time) are not modelled, no claim mentions them.
-/

namespace ETuckShop

/-- `InventoryStatus` from the inventory route:
`"in stock" | "low stock" | "out of stock"`. -/
inductive InventoryStatus
  | inStock
  | lowStock
  | outOfStock
deriving DecidableEq, Repr

/-- `calculateInventoryStatus(quantity, minStockThreshold)`:
```js
if (quantity <= 0) return "out of stock";
if (quantity <= minStockThreshold) return "low stock";
return "in stock";
``` -/
def calculateInventoryStatus (quantity minStockThreshold : Int) : InventoryStatus :=
  if quantity ≤ 0 then .outOfStock
  else if quantity ≤ minStockThreshold then .lowStock
  else .inStock

/-- `type InventoryErrorType = 'insufficient_stock' | 'item_not_found' | 'processing_error'` -/
inductive InventoryErrorType
  | insufficient_stock
  | item_not_found
  | processing_error
deriving DecidableEq, Repr

/-- `interface InventoryError { type; itemName; message; requested?; available? }` -/
structure InventoryError where
  type : InventoryErrorType
  itemName : String
  message : String
  requested : Option Int
  available : Option Int
deriving DecidableEq, Repr

/-- `OrderItem` from `types/Order.ts`: `{itemId, name, quantity, priceAtPurchase}`.
`priceAtPurchase` is client-supplied data; the route never reads it. -/
structure OrderItem where
  itemId : String
  name : String
  quantity : Int
  priceAtPurchase : Int
deriving DecidableEq, Repr

/-- One inventory document's data, as the orders route reads it.  Firestore
fields can be absent, hence `Option`; the route substitutes defaults with
`?? 0`, `?? 10`, `?? 0` at its read sites. -/
structure InventoryRecord where
  quantity : Option Int
  minStockThreshold : Option Int
  price : Option Int
  status : Option InventoryStatus
deriving DecidableEq, Repr

/-- The inventory collection: association list keyed by document id. -/
abbrev InvDB := List (String × InventoryRecord)

/-- One staged `batch.update(inventoryDoc.ref, {quantity, status, ...})`. -/
structure BatchUpdate where
  itemId : String
  quantity : Int
  status : InventoryStatus
deriving DecidableEq, Repr

/-- Apply one staged update to the store (overwrites the `quantity` and
`status` fields of the document with that id). -/
def applyUpdate (db : InvDB) (u : BatchUpdate) : InvDB :=
  db.map (fun p =>
    if p.1 = u.itemId then
      (p.1, { p.2 with quantity := some u.quantity, status := some u.status })
    else p)

/-- `batch.commit()`: apply all staged updates, in order. -/
def applyBatch (db : InvDB) (batch : List BatchUpdate) : InvDB :=
  batch.foldl applyUpdate db

/-- The mutable locals of the `for (const item of orderItems)` loop in
`deductInventoryStock`: accumulated `errors`, `calculatedPrice`, `batch`. -/
structure DeductLoopState where
  errors : List InventoryError
  calculatedPrice : Int
  batch : List BatchUpdate
deriving DecidableEq, Repr

/-- One iteration of the deduction loop.  `db` is the batch-read snapshot
(`inventoryMap`), taken before any write is staged. -/
def deductStep (db : InvDB) (st : DeductLoopState) (item : OrderItem) : DeductLoopState :=
  match db.lookup item.itemId with
  | none =>
      { st with errors := st.errors ++
          [⟨.item_not_found, item.name,
            "\"" ++ item.name ++ "\" is no longer available in our inventory.",
            none, none⟩] }
  | some inventoryData =>
      let currentQuantity := inventoryData.quantity.getD 0
      let minStockThreshold := inventoryData.minStockThreshold.getD 10
      let itemPrice := inventoryData.price.getD 0
      let newQuantity := max 0 (currentQuantity - item.quantity)
      let newStatus := calculateInventoryStatus newQuantity minStockThreshold
      let price2 := st.calculatedPrice + itemPrice * item.quantity
      if currentQuantity < item.quantity then
        { st with
          calculatedPrice := price2,
          errors := st.errors ++
            [⟨.insufficient_stock, item.name,
              (if currentQuantity = 0 then
                "\"" ++ item.name ++ "\" is out of stock."
              else
                "Only " ++ toString currentQuantity ++ " \"" ++ item.name ++
                  "\" available, but you requested " ++ toString item.quantity ++ "."),
              some item.quantity, some currentQuantity⟩] }
      else
        { st with
          calculatedPrice := price2,
          batch := st.batch ++ [⟨item.itemId, newQuantity, newStatus⟩] }

/-- The whole `for` loop of `deductInventoryStock`. -/
def deductLoop (db : InvDB) (st : DeductLoopState) : List OrderItem → DeductLoopState
  | [] => st
  | item :: rest => deductLoop db (deductStep db st item) rest

/-- Return type of `deductInventoryStock` (`{ success; errors; calculatedPrice? }`). -/
structure DeductResult where
  success : Bool
  errors : List InventoryError
  calculatedPrice : Option Int
deriving DecidableEq, Repr

/-- `deductInventoryStock(orderItems)`.  The store is threaded explicitly;
`commitOk` tells whether `batch.commit()` succeeds (an atomic Firestore batch
leaves the store unchanged when it fails).  The initial `try`/`catch` around
the batched reads is not modelled: reads in the embedding do not throw. -/
def deductInventoryStock (commitOk : Bool) (db : InvDB) (orderItems : List OrderItem) :
    DeductResult × InvDB :=
  let st := deductLoop db ⟨[], 0, []⟩ orderItems
  if st.errors ≠ [] then
    (⟨false, st.errors, none⟩, db)
  else if commitOk then
    (⟨true, st.errors, some st.calculatedPrice⟩, applyBatch db st.batch)
  else
    (⟨false,
      [⟨.processing_error, "Order", "Failed to update inventory. Please try again.",
        none, none⟩], none⟩, db)

/-- `formatInventoryErrorMessage(errors)`. -/
def formatInventoryErrorMessage (errors : List InventoryError) : String :=
  let stockErrors := errors.filter (fun e => e.type == .insufficient_stock)
  let notFoundErrors := errors.filter (fun e => e.type == .item_not_found)
  let otherErrors := errors.filter (fun e => e.type == .processing_error)
  let messages : List String :=
    (if stockErrors.length > 0 then
      [String.intercalate " " (stockErrors.map (fun e => e.message))]
    else []) ++
    (if notFoundErrors.length > 0 then
      ["The following item(s) are no longer available: " ++
        String.intercalate ", " (notFoundErrors.map (fun e => "\"" ++ e.itemName ++ "\"")) ++ "."]
    else []) ++
    (if otherErrors.length > 0 then
      ["Some items could not be processed. Please try again."]
    else [])
  let joined := String.intercalate " " messages
  if joined = "" then "Unable to process your order." else joined

/-- The `console.warn` line emitted when a restore target no longer exists. -/
def restoreWarnMsg (item : OrderItem) : String :=
  "Cannot restore stock for \"" ++ item.name ++ "\" (" ++ item.itemId ++
    ") - item not found in inventory"

/-- The mutable locals of the restore loop: staged `batch` and the
`console.warn` lines produced so far. -/
structure RestoreLoopState where
  batch : List BatchUpdate
  warnings : List String
deriving DecidableEq, Repr

/-- One iteration of the `for` loop in `restoreInventoryStock`. -/
def restoreStep (db : InvDB) (st : RestoreLoopState) (item : OrderItem) : RestoreLoopState :=
  match db.lookup item.itemId with
  | none =>
      { st with warnings := st.warnings ++ [restoreWarnMsg item] }
  | some inventoryData =>
      let currentQuantity := inventoryData.quantity.getD 0
      let minStockThreshold := inventoryData.minStockThreshold.getD 10
      let newQuantity := currentQuantity + item.quantity
      let newStatus := calculateInventoryStatus newQuantity minStockThreshold
      { st with batch := st.batch ++ [⟨item.itemId, newQuantity, newStatus⟩] }

/-- The whole `for` loop of `restoreInventoryStock`. -/
def restoreLoop (db : InvDB) (st : RestoreLoopState) : List OrderItem → RestoreLoopState
  | [] => st
  | item :: rest => restoreLoop db (restoreStep db st item) rest

/-- Return type of `restoreInventoryStock` (`{ success; error? }`), extended
with the `console.warn` output the loop produced. -/
structure RestoreResult where
  success : Bool
  error : Option String
  warnings : List String
deriving DecidableEq, Repr

/-- `restoreInventoryStock(orderItems)`.  `commitOk` tells whether
`batch.commit()` succeeds; a failed atomic batch leaves the store unchanged
and yields the commit-failure error message. -/
def restoreInventoryStock (commitOk : Bool) (db : InvDB) (orderItems : List OrderItem) :
    RestoreResult × InvDB :=
  let st := restoreLoop db ⟨[], []⟩ orderItems
  if commitOk then
    (⟨true, none, st.warnings⟩, applyBatch db st.batch)
  else
    (⟨false, some "Failed to restore inventory stock.", st.warnings⟩, db)

/-- Order lifecycle statuses:
`'pending' | 'in-progress' | 'completed' | 'cancelled' | 'cancelled-acknowledged'`. -/
inductive OrderStatus
  | pending
  | inProgress
  | completed
  | cancelled
  | cancelledAcknowledged
deriving DecidableEq, Repr

/-- An order document (`Order` from `types/Order.ts`; `OrderTime` is a server
timestamp and is not modelled — no claim mentions it). -/
structure Order where
  OrderID : Int
  userId : String
  displayName : String
  OrderContents : List OrderItem
  TotalPrice : Int
  status : OrderStatus
deriving DecidableEq, Repr

/-- Caller roles delivered by the session verifier. -/
inductive Role
  | customer
  | employee
  | owner
deriving DecidableEq, Repr

/-- The `{uid, role}` value `verifyAuth` resolves for a request. -/
structure User where
  uid : String
  role : Role
deriving DecidableEq, Repr

/-- The server-side persistent state the orders route touches. -/
structure DBState where
  orders : List Order
  inventory : InvDB
deriving DecidableEq, Repr

/-- `CreateOrderRequest`: the POST body.  `OrderContents = none` models a
missing/null field (`!body.OrderContents`); empty strings are the falsy
values for `userId` / `displayName`.  `TotalPrice` may be supplied by the
client; the handler never reads it. -/
structure CreateOrderRequest where
  userId : String
  displayName : String
  OrderContents : Option (List OrderItem)
  TotalPrice : Option Int
deriving DecidableEq, Repr

/-- The POST responses relevant after authentication (HTTP codes in
comments). -/
inductive PostResult
  | success (orderId : Int)
  | badRequest (error : String) (details : List InventoryError)
  | forbidden (error : String)
deriving DecidableEq, Repr

/-- The maximum existing `OrderID`, i.e. what the
`orderBy("OrderID", "desc").limit(1)` transaction read returns. -/
def maxOrderId : List Order → Option Int
  | [] => none
  | o :: os =>
      match maxOrderId os with
      | none => some o.OrderID
      | some m => some (max o.OrderID m)

/-- The next-id transaction of the POST handler:
empty collection → `1`, otherwise highest existing `OrderID` plus one. -/
def nextOrderId (orders : List Order) : Int :=
  match maxOrderId orders with
  | none => 1
  | some m => m + 1

/-- `POST(request)` after authentication: the handler body, as a function of
the caller identity, the parsed request body and the store state.
`deductCommitOk` is the environment input consumed by `deductInventoryStock`.
The source tests `!body.userId || !body.displayName || !body.OrderContents`
in one condition; here the missing-`OrderContents` case is split off first,
with the same response, so that the item list is in scope afterwards. -/
def POST (user : User) (deductCommitOk : Bool) (s : DBState) (body : CreateOrderRequest) :
    PostResult × DBState :=
  match body.OrderContents with
  | none => (.badRequest "userId, displayName, and OrderContents are required" [], s)
  | some contents =>
  if body.userId = "" ∨ body.displayName = "" then
    (.badRequest "userId, displayName, and OrderContents are required" [], s)
  else if user.role = .customer ∧ body.userId ≠ user.uid then
    (.forbidden "Forbidden: Cannot create orders for other users", s)
  else
    if contents.length = 0 then
      (.badRequest "OrderContents must be a non-empty array of items" [], s)
    else
      let res := deductInventoryStock deductCommitOk s.inventory contents
      let stockResult := res.1
      if stockResult.success = false then
        (.badRequest (formatInventoryErrorMessage stockResult.errors) stockResult.errors,
          { orders := s.orders, inventory := res.2 })
      else
        let serverCalculatedPrice := stockResult.calculatedPrice.getD 0
        let nid := nextOrderId s.orders
        let orderData : Order :=
          { OrderID := nid
            userId := body.userId
            displayName := body.displayName
            OrderContents := contents
            TotalPrice := serverCalculatedPrice
            status := .pending }
        (.success nid, { orders := s.orders ++ [orderData], inventory := res.2 })

/-- `UpdateOrderRequest`: the PUT body; `OrderID = none` models
`undefined`/`null`. -/
structure UpdateOrderRequest where
  OrderID : Option Int
  displayName : Option String
  OrderContents : Option (List OrderItem)
  TotalPrice : Option Int
  status : Option OrderStatus
deriving DecidableEq, Repr

/-- The PUT responses (HTTP codes: success 200, badRequest 400,
notFound 404, forbidden 403). -/
inductive PutResult
  | success (orderId : Int)
  | badRequest (error : String)
  | notFound (error : String)
  | forbidden (error : String)
deriving DecidableEq, Repr

/-- Result of a PUT call: the response, the resulting store state, and the
`console` lines it printed. -/
structure PutOutput where
  res : PutResult
  state : DBState
  log : List String
deriving DecidableEq, Repr

/-- The field-wise update `docRef.update(updateData)` applies: each field that
was provided in the body overwrites the stored one (`OrderID`, `userId` and
`OrderTime` are never part of `updateData`). -/
def updateOrderFields (body : UpdateOrderRequest) (o : Order) : Order :=
  { o with
    displayName := body.displayName.getD o.displayName
    OrderContents := body.OrderContents.getD o.OrderContents
    TotalPrice := body.TotalPrice.getD o.TotalPrice
    status := body.status.getD o.status }

/-- Update the first order with the given `OrderID` (the
`where("OrderID","==",·).limit(1)` document) by `f`, leaving the rest alone. -/
def updateFirst (orders : List Order) (oid : Int) (f : Order → Order) : List Order :=
  match orders with
  | [] => []
  | o :: os => if o.OrderID = oid then f o :: os else o :: updateFirst os oid f

/-- The tail of the PUT handler, after the order has been found and the
customer-role checks have passed: the empty-update check, the
restore-on-cancel block, and the document update. -/
def putApply (restoreCommitOk : Bool) (s : DBState) (body : UpdateOrderRequest)
    (oid : Int) (currentOrder : Order) : PutOutput :=
  if body.displayName = none ∧ body.OrderContents = none ∧
      body.TotalPrice = none ∧ body.status = none then
    ⟨.badRequest "No fields to update", s, []⟩
  else
    let invAndLog :=
      if body.status = some OrderStatus.cancelled ∧
          currentOrder.status ≠ OrderStatus.cancelled ∧
          currentOrder.status ≠ OrderStatus.cancelledAcknowledged then
        let rr := restoreInventoryStock restoreCommitOk s.inventory currentOrder.OrderContents
        if rr.1.success then
          (rr.2, rr.1.warnings ++
            ["Inventory restored for cancelled order " ++ toString oid])
        else
          (rr.2, rr.1.warnings ++
            ["Failed to restore inventory for order " ++ toString oid ++ ": " ++
              (rr.1.error.getD "undefined")])
      else (s.inventory, [])
    let orders2 := updateFirst s.orders oid (updateOrderFields body)
    ⟨.success oid, ⟨orders2, invAndLog.1⟩,
      invAndLog.2 ++ ["Order " ++ toString oid ++ " updated successfully"]⟩

/-- `PUT(request)` after authentication, as a function of the caller
identity, the parsed body and the store state.  `restoreCommitOk` is the
environment input consumed by `restoreInventoryStock` when the handler
restores stock. -/
def PUT (user : User) (restoreCommitOk : Bool) (s : DBState) (body : UpdateOrderRequest) :
    PutOutput :=
  match body.OrderID with
  | none => ⟨.badRequest "OrderID is required", s, []⟩
  | some oid =>
    match s.orders.find? (fun o => o.OrderID == oid) with
    | none => ⟨.notFound "Order not found", s, []⟩
    | some currentOrder =>
        if user.role = .customer ∧ currentOrder.userId ≠ user.uid then
          ⟨.forbidden "Forbidden: Cannot modify other users' orders", s, []⟩
        else if user.role = .customer ∧
            body.status.any (fun st => st != OrderStatus.cancelled) = true then
          ⟨.forbidden "Forbidden: Customers can only cancel orders", s, []⟩
        else if user.role = .customer ∧ currentOrder.status ≠ OrderStatus.pending then
          ⟨.badRequest "Cannot cancel an order that is already being processed", s, []⟩
        else
          putApply restoreCommitOk s body oid currentOrder

/-! ## Specification-side definitions

These follow the spec's words, for comparison with the handler code above. -/

/-- The price currently stored on an item's inventory record (a record whose
`price` field is absent reads as `0`, matching the code's `?? 0` read). -/
def snapshotPrice (db : InvDB) (itemId : String) : Int :=
  match db.lookup itemId with
  | some invRec => invRec.price.getD 0
  | none => 0

/-- The specification's order total:
`Σ inventory.price(itemId) × quantity` over the order's items, evaluated
against one store snapshot. -/
def orderPriceTotal (db : InvDB) (items : List OrderItem) : Int :=
  (items.map (fun it => snapshotPrice db it.itemId * it.quantity)).sum

/-- An order item that fails deduction against the store snapshot: its
inventory record is missing, or the requested quantity is greater than the
available quantity (a missing `quantity` field reads as `0`). -/
def failsDeduction (db : InvDB) (it : OrderItem) : Prop :=
  db.lookup it.itemId = none ∨
    ∃ invRec, db.lookup it.itemId = some invRec ∧ invRec.quantity.getD 0 < it.quantity

/-! ## Sample data for concrete instantiations -/

def sampleInv : InvDB :=
  [("a", ⟨some 5, some 10, some 4, some InventoryStatus.lowStock⟩),
   ("b", ⟨some 2, some 1, some 3, some InventoryStatus.inStock⟩)]

def appleItem : OrderItem := ⟨"a", "Apple", 3, 99⟩

def breadItem5 : OrderItem := ⟨"b", "Bread", 5, 9⟩

def ghostItem : OrderItem := ⟨"g", "Ghost", 2, 0⟩

def custUser : User := ⟨"u1", Role.customer⟩

def empUser : User := ⟨"e1", Role.employee⟩

def sampleState : DBState := ⟨[], sampleInv⟩

def sampleBody : CreateOrderRequest := ⟨"u1", "Demi", some [appleItem], some 123⟩

def badBody : CreateOrderRequest := ⟨"u1", "Demi", some [breadItem5], none⟩

def pendingOrder : Order := ⟨1, "u1", "Demi", [appleItem], 12, OrderStatus.pending⟩

def completedOrder : Order := ⟨1, "u1", "Demi", [appleItem], 12, OrderStatus.completed⟩

def ackedOrder : Order := ⟨1, "u1", "Demi", [appleItem], 12, OrderStatus.cancelledAcknowledged⟩

def pendingState : DBState := ⟨[pendingOrder], sampleInv⟩

def completedState : DBState := ⟨[completedOrder], sampleInv⟩

def ackedState : DBState := ⟨[ackedOrder], sampleInv⟩

def cancelBody : UpdateOrderRequest := ⟨some 1, none, none, none, some OrderStatus.cancelled⟩

def pendingBody : UpdateOrderRequest := ⟨some 1, none, none, none, some OrderStatus.pending⟩

/-! ## Helper lemmas -/

theorem deductStep_errors (db : InvDB) (st : DeductLoopState) (item : OrderItem) :
    ∃ es, (deductStep db st item).errors = st.errors ++ es := by
  unfold deductStep
  rcases h : db.lookup item.itemId with _ | invRec
  · exact ⟨_, rfl⟩
  · dsimp only
    split
    · exact ⟨_, rfl⟩
    · exact ⟨[], (List.append_nil _).symm⟩

theorem deductLoop_errors_mono (db : InvDB) (items : List OrderItem) (st : DeductLoopState) :
    ∃ es, (deductLoop db st items).errors = st.errors ++ es := by
  induction items generalizing st with
  | nil => exact ⟨[], (List.append_nil _).symm⟩
  | cons item rest ih =>
      obtain ⟨es1, h1⟩ := deductStep_errors db st item
      obtain ⟨es2, h2⟩ := ih (deductStep db st item)
      exact ⟨es1 ++ es2, by rw [deductLoop, h2, h1, List.append_assoc]⟩

theorem snapshotPrice_eq (db : InvDB) (itemId : String) (invRec : InventoryRecord)
    (hl : db.lookup itemId = some invRec) :
    snapshotPrice db itemId = invRec.price.getD 0 := by
  unfold snapshotPrice
  rw [hl]

theorem deductStep_notFound (db : InvDB) (st : DeductLoopState) (item : OrderItem)
    (hl : db.lookup item.itemId = none) :
    deductStep db st item =
      { st with errors := st.errors ++
          [⟨InventoryErrorType.item_not_found, item.name,
            "\"" ++ item.name ++ "\" is no longer available in our inventory.",
            none, none⟩] } := by
  unfold deductStep
  rw [hl]

theorem deductStep_found_ok (db : InvDB) (st : DeductLoopState) (item : OrderItem)
    (invRec : InventoryRecord) (hl : db.lookup item.itemId = some invRec)
    (hok : ¬ invRec.quantity.getD 0 < item.quantity) :
    deductStep db st item =
      { st with
        calculatedPrice := st.calculatedPrice + invRec.price.getD 0 * item.quantity,
        batch := st.batch ++
          [⟨item.itemId, max 0 (invRec.quantity.getD 0 - item.quantity),
            calculateInventoryStatus (max 0 (invRec.quantity.getD 0 - item.quantity))
              (invRec.minStockThreshold.getD 10)⟩] } := by
  unfold deductStep
  rw [hl]
  dsimp only
  rw [if_neg hok]

theorem deductStep_found_insufficient (db : InvDB) (st : DeductLoopState)
    (item : OrderItem) (invRec : InventoryRecord)
    (hl : db.lookup item.itemId = some invRec)
    (hlt : invRec.quantity.getD 0 < item.quantity) :
    ∃ e, deductStep db st item =
      { st with
        calculatedPrice := st.calculatedPrice + invRec.price.getD 0 * item.quantity,
        errors := st.errors ++ [e] } := by
  unfold deductStep
  rw [hl]
  dsimp only
  rw [if_pos hlt]
  exact ⟨_, rfl⟩

theorem deductStep_clean (db : InvDB) (st : DeductLoopState) (item : OrderItem)
    (h : (deductStep db st item).errors = st.errors) :
    (deductStep db st item).calculatedPrice
      = st.calculatedPrice + snapshotPrice db item.itemId * item.quantity := by
  rcases hl : db.lookup item.itemId with _ | invRec
  · rw [deductStep_notFound db st item hl] at h
    have := congrArg List.length h
    simp at this
  · by_cases hlt : invRec.quantity.getD 0 < item.quantity
    · obtain ⟨e, he⟩ := deductStep_found_insufficient db st item invRec hl hlt
      rw [he] at h
      have := congrArg List.length h
      simp at this
    · rw [deductStep_found_ok db st item invRec hl hlt,
        snapshotPrice_eq db item.itemId invRec hl]

theorem deductLoop_price (db : InvDB) (items : List OrderItem) (st : DeductLoopState)
    (h : (deductLoop db st items).errors = st.errors) :
    (deductLoop db st items).calculatedPrice
      = st.calculatedPrice + orderPriceTotal db items := by
  induction items generalizing st with
  | nil => simp [deductLoop, orderPriceTotal]
  | cons item rest ih =>
      rw [deductLoop] at h ⊢
      obtain ⟨es1, h1⟩ := deductStep_errors db st item
      obtain ⟨es2, h2⟩ := deductLoop_errors_mono db rest (deductStep db st item)
      rw [h2, h1, List.append_assoc] at h
      have hnil : es1 ++ es2 = [] :=
        List.append_cancel_left (h.trans (List.append_nil _).symm)
      obtain ⟨he1, he2⟩ := List.append_eq_nil.mp hnil
      subst he1; subst he2
      have hstep : (deductStep db st item).errors = st.errors := by
        rw [h1, List.append_nil]
      have hrest : (deductLoop db (deductStep db st item) rest).errors
          = (deductStep db st item).errors := by
        rw [h2, List.append_nil]
      rw [ih _ hrest, deductStep_clean db st item hstep]
      unfold orderPriceTotal
      simp [List.sum_cons]
      ring

theorem deductLoop_errors_ne_nil (db : InvDB) (items : List OrderItem)
    (st : DeductLoopState) (it : OrderItem) (hmem : it ∈ items)
    (hbad : failsDeduction db it) :
    (deductLoop db st items).errors ≠ [] := by
  induction items generalizing st with
  | nil => cases hmem
  | cons item rest ih =>
      rw [deductLoop]
      rcases List.mem_cons.mp hmem with heq | hmem2
      · subst heq
        obtain ⟨es2, h2⟩ := deductLoop_errors_mono db rest (deductStep db st it)
        rw [h2]
        have hstep : ∃ e, (deductStep db st it).errors = st.errors ++ [e] := by
          rcases hbad with hnone | ⟨invRec, hsome, hlt⟩
          · rw [deductStep_notFound db st it hnone]
            exact ⟨_, rfl⟩
          · obtain ⟨e, he⟩ := deductStep_found_insufficient db st it invRec hsome hlt
            rw [he]
            exact ⟨e, rfl⟩
        obtain ⟨e, he⟩ := hstep
        rw [he]
        simp
      · exact ih _ hmem2

theorem deduct_success_price (ok : Bool) (db : InvDB) (items : List OrderItem)
    (h : (deductInventoryStock ok db items).1.success = true) :
    (deductInventoryStock ok db items).1.calculatedPrice
      = some (orderPriceTotal db items) := by
  unfold deductInventoryStock at h ⊢
  dsimp only at h ⊢
  by_cases hE : (deductLoop db ⟨[], 0, []⟩ items).errors ≠ []
  · rw [if_pos hE] at h
    simp at h
  · rw [if_neg hE] at h ⊢
    cases ok with
    | false =>
        rw [if_neg (by simp)] at h
        simp at h
    | true =>
        rw [if_pos rfl]
        have hE2 : (deductLoop db ⟨[], 0, []⟩ items).errors
            = (⟨[], 0, []⟩ : DeductLoopState).errors := not_not.mp hE
        rw [deductLoop_price db items ⟨[], 0, []⟩ hE2]
        rw [zero_add]

theorem deduct_fail_db (ok : Bool) (db : InvDB) (items : List OrderItem)
    (h : (deductInventoryStock ok db items).1.success = false) :
    (deductInventoryStock ok db items).2 = db := by
  unfold deductInventoryStock at h ⊢
  dsimp only at h ⊢
  by_cases hE : (deductLoop db ⟨[], 0, []⟩ items).errors ≠ []
  · rw [if_pos hE]
  · rw [if_neg hE] at h ⊢
    cases ok with
    | false => rw [if_neg (by simp)]
    | true =>
        rw [if_pos rfl] at h
        simp at h

theorem deduct_fail_of_bad (ok : Bool) (db : InvDB) (items : List OrderItem)
    (it : OrderItem) (hmem : it ∈ items) (hbad : failsDeduction db it) :
    (deductInventoryStock ok db items).1.success = false ∧
    (deductInventoryStock ok db items).1.errors ≠ [] := by
  have hE := deductLoop_errors_ne_nil db items ⟨[], 0, []⟩ it hmem hbad
  unfold deductInventoryStock
  dsimp only
  rw [if_pos hE]
  exact ⟨rfl, hE⟩

theorem POST_success_iff (user : User) (ok : Bool) (s : DBState)
    (body : CreateOrderRequest) (oid : Int)
    (h : (POST user ok s body).1 = PostResult.success oid) :
    ∃ contents, body.OrderContents = some contents ∧
      (deductInventoryStock ok s.inventory contents).1.success = true ∧
      oid = nextOrderId s.orders ∧
      (POST user ok s body).2 =
        { orders := s.orders ++
            [⟨oid, body.userId, body.displayName, contents,
              (deductInventoryStock ok s.inventory contents).1.calculatedPrice.getD 0,
              OrderStatus.pending⟩],
          inventory := (deductInventoryStock ok s.inventory contents).2 } := by
  unfold POST at h ⊢
  rcases hoc : body.OrderContents with _ | contents
  · rw [hoc] at h
    simp at h
  · rw [hoc] at h
    dsimp only at h ⊢
    refine ⟨contents, rfl, ?_⟩
    by_cases h1 : body.userId = "" ∨ body.displayName = ""
    · rw [if_pos h1] at h
      simp at h
    · rw [if_neg h1] at h ⊢
      by_cases h2 : user.role = Role.customer ∧ body.userId ≠ user.uid
      · rw [if_pos h2] at h
        simp at h
      · rw [if_neg h2] at h ⊢
        by_cases h3 : contents.length = 0
        · rw [if_pos h3] at h
          simp at h
        · rw [if_neg h3] at h ⊢
          by_cases h4 : (deductInventoryStock ok s.inventory contents).1.success = false
          · rw [if_pos h4] at h
            simp at h
          · rw [if_neg h4] at h ⊢
            dsimp only at h ⊢
            have h5 : (deductInventoryStock ok s.inventory contents).1.success = true := by
              simpa using h4
            injection h with hoid
            exact ⟨h5, hoid.symm, by rw [← hoid]⟩

theorem mem_le_maxOrderId (orders : List Order) (o : Order) (ho : o ∈ orders) :
    ∃ m, maxOrderId orders = some m ∧ o.OrderID ≤ m := by
  induction orders with
  | nil => cases ho
  | cons o2 os ih =>
      rcases List.mem_cons.mp ho with heq | hmem
      · subst heq
        unfold maxOrderId
        rcases hm : maxOrderId os with _ | m
        · exact ⟨o.OrderID, rfl, le_refl _⟩
        · exact ⟨max o.OrderID m, rfl, le_max_left _ _⟩
      · obtain ⟨m, hm, hle⟩ := ih hmem
        unfold maxOrderId
        rw [hm]
        exact ⟨max o2.OrderID m, rfl, le_trans hle (le_max_right _ _)⟩

theorem orderId_lt_next (orders : List Order) (o : Order) (ho : o ∈ orders) :
    o.OrderID < nextOrderId orders := by
  obtain ⟨m, hm, hle⟩ := mem_le_maxOrderId orders o ho
  unfold nextOrderId
  rw [hm]
  dsimp only
  omega

theorem restoreStep_notFound (db : InvDB) (st : RestoreLoopState) (item : OrderItem)
    (hl : db.lookup item.itemId = none) :
    restoreStep db st item = { st with warnings := st.warnings ++ [restoreWarnMsg item] } := by
  unfold restoreStep
  rw [hl]

theorem restoreStep_found (db : InvDB) (st : RestoreLoopState) (item : OrderItem)
    (invRec : InventoryRecord) (hl : db.lookup item.itemId = some invRec) :
    restoreStep db st item =
      { st with batch := st.batch ++
          [⟨item.itemId, invRec.quantity.getD 0 + item.quantity,
            calculateInventoryStatus (invRec.quantity.getD 0 + item.quantity)
              (invRec.minStockThreshold.getD 10)⟩] } := by
  unfold restoreStep
  rw [hl]

theorem restoreLoop_warnings_mono (db : InvDB) (items : List OrderItem)
    (st : RestoreLoopState) :
    ∃ ws, (restoreLoop db st items).warnings = st.warnings ++ ws := by
  induction items generalizing st with
  | nil => exact ⟨[], (List.append_nil _).symm⟩
  | cons item rest ih =>
      obtain ⟨ws2, h2⟩ := ih (restoreStep db st item)
      rw [restoreLoop, h2]
      rcases hl : db.lookup item.itemId with _ | invRec
      · rw [restoreStep_notFound db st item hl]
        exact ⟨_, by rw [List.append_assoc]⟩
      · rw [restoreStep_found db st item invRec hl]
        exact ⟨ws2, rfl⟩

theorem restoreLoop_warn_mem (db : InvDB) (items : List OrderItem)
    (st : RestoreLoopState) (it : OrderItem) (hmem : it ∈ items)
    (hmiss : db.lookup it.itemId = none) :
    restoreWarnMsg it ∈ (restoreLoop db st items).warnings := by
  induction items generalizing st with
  | nil => cases hmem
  | cons item rest ih =>
      rw [restoreLoop]
      rcases List.mem_cons.mp hmem with heq | hmem2
      · subst heq
        obtain ⟨ws2, h2⟩ := restoreLoop_warnings_mono db rest (restoreStep db st it)
        rw [h2, restoreStep_notFound db st it hmiss]
        simp
      · exact ih _ hmem2

theorem restoreLoop_batch_indep (db : InvDB) (items : List OrderItem)
    (b : List BatchUpdate) (w w2 : List String) :
    (restoreLoop db ⟨b, w⟩ items).batch = (restoreLoop db ⟨b, w2⟩ items).batch := by
  induction items generalizing b w w2 with
  | nil => rfl
  | cons item rest ih =>
      rw [restoreLoop, restoreLoop]
      rcases hl : db.lookup item.itemId with _ | invRec
      · rw [restoreStep_notFound db ⟨b, w⟩ item hl, restoreStep_notFound db ⟨b, w2⟩ item hl]
        exact ih b _ _
      · rw [restoreStep_found db ⟨b, w⟩ item invRec hl,
          restoreStep_found db ⟨b, w2⟩ item invRec hl]
        exact ih _ w w2

theorem restoreLoop_batch_filter (db : InvDB) (items : List OrderItem)
    (st : RestoreLoopState) :
    (restoreLoop db st items).batch
      = (restoreLoop db st
          (items.filter (fun it => (db.lookup it.itemId).isSome))).batch := by
  induction items generalizing st with
  | nil => rfl
  | cons item rest ih =>
      rcases hl : db.lookup item.itemId with _ | invRec
      · have hfc : (item :: rest).filter (fun it => (db.lookup it.itemId).isSome)
            = rest.filter (fun it => (db.lookup it.itemId).isSome) := by
          simp [List.filter_cons, hl]
        rw [hfc, restoreLoop, restoreStep_notFound db st item hl]
        rw [restoreLoop_batch_indep db rest st.batch (st.warnings ++ [restoreWarnMsg item])
          st.warnings]
        exact ih st
      · have hfc : (item :: rest).filter (fun it => (db.lookup it.itemId).isSome)
            = item :: rest.filter (fun it => (db.lookup it.itemId).isSome) := by
          simp [List.filter_cons, hl]
        rw [hfc, restoreLoop, restoreLoop]
        exact ih (restoreStep db st item)

theorem restore_commit_fail (db : InvDB) (items : List OrderItem) :
    (restoreInventoryStock false db items).1.success = false ∧
    (restoreInventoryStock false db items).1.error
      = some "Failed to restore inventory stock." ∧
    (restoreInventoryStock false db items).2 = db := by
  unfold restoreInventoryStock
  dsimp only
  rw [if_neg (by simp)]
  exact ⟨rfl, rfl, rfl⟩

/-! ## Claim theorems -/

/-- C9: the status derivation is a pure function of `(quantity, threshold)`:
for every threshold `t ≥ 0` it returns out-of-stock at quantity `0`,
low-stock for `0 < q ≤ t`, and in-stock for `q > t`. -/
theorem calculateInventoryStatus_cases (q t : Int) (ht : 0 ≤ t) :
    (q = 0 → calculateInventoryStatus q t = InventoryStatus.outOfStock) ∧
    (0 < q → q ≤ t → calculateInventoryStatus q t = InventoryStatus.lowStock) ∧
    (t < q → calculateInventoryStatus q t = InventoryStatus.inStock) := by
  unfold calculateInventoryStatus
  refine ⟨?_, ?_, ?_⟩
  · intro hq
    rw [if_pos (le_of_eq hq)]
  · intro hq hqt
    rw [if_neg (by omega), if_pos hqt]
  · intro hq
    rw [if_neg (by omega), if_neg (by omega)]

/-- Witness for C9 at `(q, t) = (0, 7)`, `(3, 7)`, `(9, 7)`. -/
theorem calculateInventoryStatus_cases_witness :
    ((0 : Int) = 0 → calculateInventoryStatus 0 7 = InventoryStatus.outOfStock) ∧
    ((0 : Int) < 0 → (0 : Int) ≤ 7 → calculateInventoryStatus 0 7 = InventoryStatus.lowStock) ∧
    ((7 : Int) < 0 → calculateInventoryStatus 0 7 = InventoryStatus.inStock) :=
  calculateInventoryStatus_cases 0 7 (by decide)

/-- C10: a deduction item whose requested quantity exactly equals the
available quantity produces no error, stages a new quantity of `0`, and
recomputes that item's status to out-of-stock. -/
theorem deductStep_exact_quantity (db : InvDB) (st : DeductLoopState)
    (item : OrderItem) (invRec : InventoryRecord)
    (hfind : db.lookup item.itemId = some invRec)
    (heq : invRec.quantity.getD 0 = item.quantity) :
    (deductStep db st item).errors = st.errors ∧
    (deductStep db st item).batch
      = st.batch ++ [⟨item.itemId, 0, InventoryStatus.outOfStock⟩] := by
  unfold deductStep
  rw [hfind]
  dsimp only
  rw [heq]
  rw [if_neg (lt_irrefl item.quantity)]
  have hq : max 0 (item.quantity - item.quantity) = 0 := by omega
  rw [hq]
  have hs : calculateInventoryStatus 0 (invRec.minStockThreshold.getD 10)
      = InventoryStatus.outOfStock := by
    unfold calculateInventoryStatus
    rw [if_pos (le_refl 0)]
  rw [hs]
  exact ⟨rfl, rfl⟩

/-- Witness for C10: item `"a"` with available quantity `4`, requested `4`. -/
theorem deductStep_exact_quantity_witness :
    (deductStep [("a", ⟨some 4, some 10, some 5, some InventoryStatus.lowStock⟩)]
        ⟨[], 0, []⟩ ⟨"a", "Apple", 4, 9⟩).errors = [] ∧
    (deductStep [("a", ⟨some 4, some 10, some 5, some InventoryStatus.lowStock⟩)]
        ⟨[], 0, []⟩ ⟨"a", "Apple", 4, 9⟩).batch
      = [] ++ [⟨"a", 0, InventoryStatus.outOfStock⟩] :=
  deductStep_exact_quantity
    [("a", ⟨some 4, some 10, some 5, some InventoryStatus.lowStock⟩)]
    ⟨[], 0, []⟩ ⟨"a", "Apple", 4, 9⟩ ⟨some 4, some 10, some 5, some InventoryStatus.lowStock⟩
    (by decide) (by decide)

/-- C1: for every order-creation request that succeeds, the persisted order's
`TotalPrice` equals the sum over its items of the price stored on that item's
inventory record at creation time multiplied by the ordered quantity; the
response and resulting state are independent of any client-supplied
`TotalPrice`, which is therefore never stored. -/
theorem POST_totalPrice_server_side (user : User) (ok : Bool) (s : DBState)
    (body : CreateOrderRequest) (oid : Int)
    (h : (POST user ok s body).1 = PostResult.success oid) :
    (∃ contents, body.OrderContents = some contents ∧
      (POST user ok s body).2.orders = s.orders ++
        [⟨oid, body.userId, body.displayName, contents,
          orderPriceTotal s.inventory contents, OrderStatus.pending⟩]) ∧
    (∀ t, POST user ok s ⟨body.userId, body.displayName, body.OrderContents, t⟩
        = POST user ok s body) := by
  constructor
  · obtain ⟨contents, hoc, hsucc, hoid, hstate⟩ := POST_success_iff user ok s body oid h
    refine ⟨contents, hoc, ?_⟩
    rw [hstate]
    dsimp only
    rw [deduct_success_price ok s.inventory contents hsucc]
    rfl
  · intro t
    cases body
    rfl

/-- Witness for C1: a customer orders 3 Apples at stored price 4; the
persisted total is `3 × 4`, not the supplied `123`. -/
theorem POST_totalPrice_server_side_witness :
    (∃ contents, sampleBody.OrderContents = some contents ∧
      (POST custUser true sampleState sampleBody).2.orders = sampleState.orders ++
        [⟨1, sampleBody.userId, sampleBody.displayName, contents,
          orderPriceTotal sampleState.inventory contents, OrderStatus.pending⟩]) ∧
    (∀ t, POST custUser true sampleState
        ⟨sampleBody.userId, sampleBody.displayName, sampleBody.OrderContents, t⟩
        = POST custUser true sampleState sampleBody) :=
  POST_totalPrice_server_side custUser true sampleState sampleBody 1 (by decide)

/-- C2: an order creation in which some item fails deduction (missing
inventory record, or requested quantity greater than available) leaves the
whole store state unchanged — no inventory quantity or status changes and no
order record is created — and returns the structured errors. -/
theorem POST_failed_deduction_atomic (user : User) (ok : Bool) (s : DBState)
    (body : CreateOrderRequest) (contents : List OrderItem)
    (hoc : body.OrderContents = some contents)
    (hu : body.userId ≠ "") (hd : body.displayName ≠ "")
    (hauth : user.role = Role.customer → body.userId = user.uid)
    (it : OrderItem) (hmem : it ∈ contents) (hbad : failsDeduction s.inventory it) :
    (POST user ok s body).2 = s ∧
    ∃ errs, errs ≠ [] ∧
      (POST user ok s body).1
        = PostResult.badRequest (formatInventoryErrorMessage errs) errs := by
  obtain ⟨hfail, hne⟩ := deduct_fail_of_bad ok s.inventory contents it hmem hbad
  unfold POST
  rw [hoc]
  dsimp only
  rw [if_neg (by push_neg; exact ⟨hu, hd⟩)]
  rw [if_neg (fun hc => hc.2 (hauth hc.1))]
  rw [if_neg (fun h0 => List.ne_nil_of_mem hmem (List.length_eq_zero.mp h0))]
  rw [if_pos hfail]
  refine ⟨?_, (deductInventoryStock ok s.inventory contents).1.errors, hne, rfl⟩
  rw [deduct_fail_db ok s.inventory contents hfail]

/-- Witness for C2: 5 Bread requested with only 2 available. -/
theorem POST_failed_deduction_atomic_witness :
    (POST custUser true sampleState badBody).2 = sampleState ∧
    ∃ errs, errs ≠ [] ∧
      (POST custUser true sampleState badBody).1
        = PostResult.badRequest (formatInventoryErrorMessage errs) errs :=
  POST_failed_deduction_atomic custUser true sampleState badBody [breadItem5]
    (by decide) (by decide) (by decide) (fun _ => rfl) breadItem5 (by decide)
    (Or.inr ⟨⟨some 2, some 1, some 3, some InventoryStatus.inStock⟩, by decide, by decide⟩)

/-- C8: every successfully created order is appended with an `OrderID` that
is strictly greater than every `OrderID` already in the store (hence never a
duplicate), equal to `1` when the store holds no orders, and equal to the
current maximum `OrderID` plus one otherwise. -/
theorem POST_orderId_monotone (user : User) (ok : Bool) (s : DBState)
    (body : CreateOrderRequest) (oid : Int)
    (h : (POST user ok s body).1 = PostResult.success oid) :
    (∃ o, (POST user ok s body).2.orders = s.orders ++ [o] ∧ o.OrderID = oid) ∧
    (s.orders = [] → oid = 1) ∧
    (∀ o ∈ s.orders, o.OrderID < oid) ∧
    (∀ m, maxOrderId s.orders = some m → oid = m + 1) := by
  obtain ⟨contents, hoc, hsucc, hoid, hstate⟩ := POST_success_iff user ok s body oid h
  subst hoid
  refine ⟨⟨_, by rw [hstate], rfl⟩, ?_, ?_, ?_⟩
  · intro he
    rw [he]
    rfl
  · intro o ho
    exact orderId_lt_next s.orders o ho
  · intro m hm
    unfold nextOrderId
    rw [hm]

/-- Witness for C8: the first order of an empty store gets `OrderID` 1. -/
theorem POST_orderId_monotone_witness :
    (∃ o, (POST custUser true sampleState sampleBody).2.orders
        = sampleState.orders ++ [o] ∧ o.OrderID = 1) ∧
    (sampleState.orders = [] → (1 : Int) = 1) ∧
    (∀ o ∈ sampleState.orders, o.OrderID < 1) ∧
    (∀ m, maxOrderId sampleState.orders = some m → (1 : Int) = m + 1) :=
  POST_orderId_monotone custUser true sampleState sampleBody 1 (by decide)

/-- C6: during restore-on-cancellation, an order item whose inventory record
no longer exists is logged and skipped: the operation still succeeds, the
warning for the missing item is emitted, and the resulting store equals the
one obtained by restoring only the still-existing items (whose quantities are
incremented with status recomputed). -/
theorem restore_missing_item_skipped (db : InvDB) (items : List OrderItem)
    (item : OrderItem) (hmem : item ∈ items)
    (hmiss : db.lookup item.itemId = none) :
    (restoreInventoryStock true db items).1.success = true ∧
    restoreWarnMsg item ∈ (restoreInventoryStock true db items).1.warnings ∧
    (restoreInventoryStock true db items).2
      = (restoreInventoryStock true db
          (items.filter (fun it => (db.lookup it.itemId).isSome))).2 := by
  unfold restoreInventoryStock
  dsimp only
  rw [if_pos rfl, if_pos rfl]
  refine ⟨rfl, ?_, ?_⟩
  · exact restoreLoop_warn_mem db items ⟨[], []⟩ item hmem hmiss
  · rw [restoreLoop_batch_filter db items ⟨[], []⟩]

/-- Witness for C6: restoring `[Ghost, Apple]` where "g" has no inventory
record succeeds, warns about Ghost and restores Apple alone. -/
theorem restore_missing_item_skipped_witness :
    (restoreInventoryStock true sampleInv [ghostItem, appleItem]).1.success = true ∧
    restoreWarnMsg ghostItem
      ∈ (restoreInventoryStock true sampleInv [ghostItem, appleItem]).1.warnings ∧
    (restoreInventoryStock true sampleInv [ghostItem, appleItem]).2
      = (restoreInventoryStock true sampleInv
          ([ghostItem, appleItem].filter
            (fun it => (sampleInv.lookup it.itemId).isSome))).2 :=
  restore_missing_item_skipped sampleInv [ghostItem, appleItem] ghostItem
    (by decide) (by decide)

theorem updateOrderFields_OrderID (body : UpdateOrderRequest) (o : Order) :
    (updateOrderFields body o).OrderID = o.OrderID := rfl

theorem find?_updateFirst (orders : List Order) (oid : Int) (f : Order → Order)
    (hf : ∀ o, (f o).OrderID = o.OrderID) :
    (updateFirst orders oid f).find? (fun o => o.OrderID == oid)
      = Option.map f (orders.find? (fun o => o.OrderID == oid)) := by
  induction orders with
  | nil => rfl
  | cons o os ih =>
      unfold updateFirst
      by_cases h : o.OrderID = oid
      · rw [if_pos h]
        rw [List.find?_cons_of_pos _ (by simp [hf, h])]
        rw [List.find?_cons_of_pos _ (by simp [h])]
        rfl
      · rw [if_neg h]
        rw [List.find?_cons_of_neg _ (by simp [h])]
        rw [List.find?_cons_of_neg _ (by simp [hf, h])]
        exact ih

theorem PUT_some_branch (user : User) (ok : Bool) (s : DBState)
    (body : UpdateOrderRequest) (oid : Int) (o : Order)
    (hid : body.OrderID = some oid)
    (hfind : s.orders.find? (fun x => x.OrderID == oid) = some o) :
    PUT user ok s body =
      (if user.role = Role.customer ∧ o.userId ≠ user.uid then
        ⟨.forbidden "Forbidden: Cannot modify other users' orders", s, []⟩
      else if user.role = Role.customer ∧
          body.status.any (fun st => st != OrderStatus.cancelled) = true then
        ⟨.forbidden "Forbidden: Customers can only cancel orders", s, []⟩
      else if user.role = Role.customer ∧ o.status ≠ OrderStatus.pending then
        ⟨.badRequest "Cannot cancel an order that is already being processed", s, []⟩
      else
        putApply ok s body oid o) := by
  unfold PUT
  rw [hid]
  dsimp only
  rw [hfind]

theorem PUT_found (user : User) (ok : Bool) (s : DBState)
    (body : UpdateOrderRequest) (oid : Int) (o : Order)
    (hid : body.OrderID = some oid)
    (hfind : s.orders.find? (fun x => x.OrderID == oid) = some o)
    (hrole : user.role ≠ Role.customer) :
    PUT user ok s body = putApply ok s body oid o := by
  rw [PUT_some_branch user ok s body oid o hid hfind]
  rw [if_neg (fun hc => hrole hc.1), if_neg (fun hc => hrole hc.1),
    if_neg (fun hc => hrole hc.1)]

theorem PUT_reaches_apply (user : User) (ok : Bool) (s : DBState)
    (body : UpdateOrderRequest) (oid : Int) (o : Order)
    (hid : body.OrderID = some oid)
    (hfind : s.orders.find? (fun x => x.OrderID == oid) = some o)
    (hcust : user.role = Role.customer →
      o.userId = user.uid ∧
      body.status.any (fun st => st != OrderStatus.cancelled) = false ∧
      o.status = OrderStatus.pending) :
    PUT user ok s body = putApply ok s body oid o := by
  rw [PUT_some_branch user ok s body oid o hid hfind]
  by_cases hrole : user.role = Role.customer
  · obtain ⟨hown, hany, hpend⟩ := hcust hrole
    have hc2 : ¬(user.role = Role.customer ∧
        body.status.any (fun st => st != OrderStatus.cancelled) = true) := by
      rintro ⟨-, hx⟩
      rw [hany] at hx
      cases hx
    rw [if_neg (fun hc => hc.2 hown), if_neg hc2, if_neg (fun hc => hc.2 hpend)]
  · rw [if_neg (fun hc => hrole hc.1), if_neg (fun hc => hrole hc.1),
      if_neg (fun hc => hrole hc.1)]

theorem putApply_res_cases (ok : Bool) (s : DBState) (body : UpdateOrderRequest)
    (oid : Int) (o : Order) :
    (putApply ok s body oid o).res = PutResult.badRequest "No fields to update" ∨
    (putApply ok s body oid o).res = PutResult.success oid := by
  unfold putApply
  split
  · exact Or.inl rfl
  · exact Or.inr rfl

theorem putApply_result (ok : Bool) (s : DBState) (body : UpdateOrderRequest)
    (oid : Int) (o : Order)
    (hsome : ¬(body.displayName = none ∧ body.OrderContents = none ∧
      body.TotalPrice = none ∧ body.status = none)) :
    (putApply ok s body oid o).res = PutResult.success oid ∧
    (putApply ok s body oid o).state.orders
      = updateFirst s.orders oid (updateOrderFields body) := by
  unfold putApply
  rw [if_neg hsome]
  exact ⟨rfl, rfl⟩

theorem putApply_cancel_restore (ok : Bool) (s : DBState) (body : UpdateOrderRequest)
    (oid : Int) (o : Order)
    (hst : body.status = some OrderStatus.cancelled)
    (h1 : o.status ≠ OrderStatus.cancelled)
    (h2 : o.status ≠ OrderStatus.cancelledAcknowledged) :
    (putApply ok s body oid o).state.inventory
      = (restoreInventoryStock ok s.inventory o.OrderContents).2 ∧
    ((restoreInventoryStock ok s.inventory o.OrderContents).1.success = false →
      ("Failed to restore inventory for order " ++ toString oid ++ ": " ++
        ((restoreInventoryStock ok s.inventory o.OrderContents).1.error.getD "undefined"))
        ∈ (putApply ok s body oid o).log) := by
  unfold putApply
  rw [if_neg (by simp [hst])]
  dsimp only
  rw [if_pos ⟨hst, h1, h2⟩]
  by_cases hsucc : (restoreInventoryStock ok s.inventory o.OrderContents).1.success = true
  · rw [if_pos hsucc]
    refine ⟨rfl, ?_⟩
    intro hfail
    rw [hsucc] at hfail
    cases hfail
  · rw [if_neg hsucc]
    exact ⟨rfl, fun _ => by simp⟩

theorem putApply_cancel_noop (ok : Bool) (s : DBState) (body : UpdateOrderRequest)
    (oid : Int) (o : Order)
    (hst : body.status = some OrderStatus.cancelled)
    (h12 : o.status = OrderStatus.cancelled ∨ o.status = OrderStatus.cancelledAcknowledged) :
    (putApply ok s body oid o).state.inventory = s.inventory := by
  unfold putApply
  rw [if_neg (by simp [hst])]
  dsimp only
  have hc2 : ¬(body.status = some OrderStatus.cancelled ∧
      o.status ≠ OrderStatus.cancelled ∧ o.status ≠ OrderStatus.cancelledAcknowledged) := by
    rintro ⟨-, ha, hb⟩
    rcases h12 with h | h
    · exact ha h
    · exact hb h
  rw [if_neg hc2]

/-- C3 counterexample: the handler applies a staff caller's requested status
without any transition-table check.  An employee moving an order out of the
terminal status `completed` back to `pending` — a transition the claim says
must be rejected as invalid — is accepted with success and applied. -/
theorem PUT_no_transition_check_cex :
    completedOrder.status = OrderStatus.completed ∧
    (PUT empUser true completedState pendingBody).res = PutResult.success 1 ∧
    (PUT empUser true completedState pendingBody).state.orders
      = [⟨1, "u1", "Demi", [appleItem], 12, OrderStatus.pending⟩] := by
  decide

/-- C3 (amended): the handler performs no transition-table validation and has
no invalid-transition rejection.  For a caller whose role is employee or
owner, any requested status — including transitions out of the terminal
states `completed` and `cancelled-acknowledged` — is applied to the found
order and answered with success; only customer callers are restricted (to
cancelling their own pending orders, per C4). -/
theorem PUT_staff_any_status (user : User) (hrole : user.role ≠ Role.customer)
    (ok : Bool) (s : DBState) (body : UpdateOrderRequest) (oid : Int)
    (st : OrderStatus) (o : Order)
    (hid : body.OrderID = some oid) (hst : body.status = some st)
    (hfind : s.orders.find? (fun x => x.OrderID == oid) = some o) :
    (PUT user ok s body).res = PutResult.success oid ∧
    ∃ o2, (PUT user ok s body).state.orders.find? (fun x => x.OrderID == oid)
        = some o2 ∧ o2.status = st := by
  rw [PUT_found user ok s body oid o hid hfind hrole]
  obtain ⟨hres, horders⟩ := putApply_result ok s body oid o (by simp [hst])
  refine ⟨hres, ?_⟩
  rw [horders, find?_updateFirst s.orders oid (updateOrderFields body) (fun x => rfl), hfind]
  exact ⟨_, rfl, by simp [updateOrderFields, hst]⟩

/-- Witness for the amended C3: an employee sets a completed order back to
pending and the handler applies it. -/
theorem PUT_staff_any_status_witness :
    (PUT empUser true completedState pendingBody).res = PutResult.success 1 ∧
    ∃ o2, (PUT empUser true completedState pendingBody).state.orders.find?
        (fun x => x.OrderID == 1) = some o2 ∧ o2.status = OrderStatus.pending :=
  PUT_staff_any_status empUser (by decide) true completedState pendingBody 1
    OrderStatus.pending completedOrder rfl rfl (by decide)

/-- C4: for a customer caller, a missing order yields not-found; an existing
order that is not theirs yields forbidden (never not-found); setting any
status other than cancelled yields forbidden; and when the order's current
status is not pending the request never succeeds — and in every one of these
rejected cases the store state is unchanged. -/
theorem PUT_customer_rules (user : User) (hrole : user.role = Role.customer)
    (ok : Bool) (s : DBState) (body : UpdateOrderRequest) (oid : Int)
    (hid : body.OrderID = some oid) :
    (s.orders.find? (fun x => x.OrderID == oid) = none →
      (PUT user ok s body).res = PutResult.notFound "Order not found" ∧
      (PUT user ok s body).state = s) ∧
    (∀ o, s.orders.find? (fun x => x.OrderID == oid) = some o →
      (∀ e, (PUT user ok s body).res ≠ PutResult.notFound e) ∧
      (o.userId ≠ user.uid →
        (PUT user ok s body).res
          = PutResult.forbidden "Forbidden: Cannot modify other users' orders" ∧
        (PUT user ok s body).state = s) ∧
      (∀ st2, body.status = some st2 → st2 ≠ OrderStatus.cancelled →
        (∃ e, (PUT user ok s body).res = PutResult.forbidden e) ∧
        (PUT user ok s body).state = s) ∧
      (o.status ≠ OrderStatus.pending →
        (∀ oid2, (PUT user ok s body).res ≠ PutResult.success oid2) ∧
        (PUT user ok s body).state = s)) := by
  constructor
  · intro hnone
    unfold PUT
    rw [hid]
    dsimp only
    rw [hnone]
    exact ⟨rfl, rfl⟩
  · intro o hfind
    rw [PUT_some_branch user ok s body oid o hid hfind]
    by_cases c1 : user.role = Role.customer ∧ o.userId ≠ user.uid
    · rw [if_pos c1]
      exact ⟨(by intro e h; cases h),
             fun _ => ⟨rfl, rfl⟩,
             fun st2 h2 h3 => ⟨⟨_, rfl⟩, rfl⟩,
             fun _ => ⟨(by intro oid2 h; cases h), rfl⟩⟩
    · rw [if_neg c1]
      have howner : ¬ o.userId ≠ user.uid := fun hne => c1 ⟨hrole, hne⟩
      by_cases c2 : user.role = Role.customer ∧
          body.status.any (fun st => st != OrderStatus.cancelled) = true
      · rw [if_pos c2]
        exact ⟨(by intro e h; cases h),
               fun hne => absurd hne howner,
               fun st2 h2 h3 => ⟨⟨_, rfl⟩, rfl⟩,
               fun _ => ⟨(by intro oid2 h; cases h), rfl⟩⟩
      · rw [if_neg c2]
        have hstat : ∀ st2, body.status = some st2 → st2 = OrderStatus.cancelled := by
          intro st2 h2
          by_contra hne
          exact c2 ⟨hrole, by rw [h2]; simpa using hne⟩
        by_cases c3 : user.role = Role.customer ∧ o.status ≠ OrderStatus.pending
        · rw [if_pos c3]
          exact ⟨(by intro e h; cases h),
                 fun hne => absurd hne howner,
                 fun st2 h2 h3 => absurd (hstat st2 h2) h3,
                 fun _ => ⟨(by intro oid2 h; cases h), rfl⟩⟩
        · rw [if_neg c3]
          have hpend : o.status = OrderStatus.pending := by
            by_contra hnp
            exact c3 ⟨hrole, hnp⟩
          refine ⟨?_,
                  fun hne => absurd hne howner,
                  fun st2 h2 h3 => absurd (hstat st2 h2) h3,
                  fun hnp => absurd hpend hnp⟩
          intro e h
          rcases putApply_res_cases ok s body oid o with hr | hr <;> rw [hr] at h <;> cases h

/-- Witness for C4: a customer attempting to cancel their own completed
order. -/
theorem PUT_customer_rules_witness :
    (completedState.orders.find? (fun x => x.OrderID == 1) = none →
      (PUT custUser true completedState cancelBody).res
        = PutResult.notFound "Order not found" ∧
      (PUT custUser true completedState cancelBody).state = completedState) ∧
    (∀ o, completedState.orders.find? (fun x => x.OrderID == 1) = some o →
      (∀ e, (PUT custUser true completedState cancelBody).res ≠ PutResult.notFound e) ∧
      (o.userId ≠ custUser.uid →
        (PUT custUser true completedState cancelBody).res
          = PutResult.forbidden "Forbidden: Cannot modify other users' orders" ∧
        (PUT custUser true completedState cancelBody).state = completedState) ∧
      (∀ st2, cancelBody.status = some st2 → st2 ≠ OrderStatus.cancelled →
        (∃ e, (PUT custUser true completedState cancelBody).res = PutResult.forbidden e) ∧
        (PUT custUser true completedState cancelBody).state = completedState) ∧
      (o.status ≠ OrderStatus.pending →
        (∀ oid2, (PUT custUser true completedState cancelBody).res
            ≠ PutResult.success oid2) ∧
        (PUT custUser true completedState cancelBody).state = completedState)) :=
  PUT_customer_rules custUser rfl true completedState cancelBody 1 rfl

/-- C5 counterexample: restore-on-cancel is not limited to transitions from
`pending` or `in-progress` — cancelling a `completed` order also restores its
contents (item "a" goes from quantity 5 back up to 8). -/
theorem PUT_cancel_restores_from_completed_cex :
    completedOrder.status = OrderStatus.completed ∧
    sampleInv.lookup "a" = some ⟨some 5, some 10, some 4, some InventoryStatus.lowStock⟩ ∧
    (PUT empUser true completedState cancelBody).state.inventory.lookup "a"
      = some ⟨some 8, some 10, some 4, some InventoryStatus.lowStock⟩ := by
  decide

/-- C5 (amended): for every caller, setting an order's status to cancelled
triggers restoration of its `OrderContents` exactly once, namely on any
transition into cancelled from a state other than `cancelled` or
`cancelled-acknowledged` (this includes `completed`, not only `pending` and
`in-progress`); the restore conjunct assumes only that a customer caller owns
the order and that it is pending — the handler's conditions for a customer
cancellation to be accepted at all.  Cancelling an order already `cancelled`
or `cancelled-acknowledged` performs no inventory mutation for any caller
role whatsoever, so repeated cancellation never double-restores stock. -/
theorem PUT_cancel_restore_once (user : User) (ok : Bool) (s : DBState)
    (body : UpdateOrderRequest) (oid : Int) (o : Order)
    (hid : body.OrderID = some oid)
    (hfind : s.orders.find? (fun x => x.OrderID == oid) = some o)
    (hst : body.status = some OrderStatus.cancelled) :
    ((user.role = Role.customer → o.userId = user.uid ∧ o.status = OrderStatus.pending) →
      o.status ≠ OrderStatus.cancelled → o.status ≠ OrderStatus.cancelledAcknowledged →
      (PUT user ok s body).state.inventory
        = (restoreInventoryStock ok s.inventory o.OrderContents).2) ∧
    (o.status = OrderStatus.cancelled ∨ o.status = OrderStatus.cancelledAcknowledged →
      (PUT user ok s body).state.inventory = s.inventory) := by
  have hany : body.status.any (fun st => st != OrderStatus.cancelled) = false := by
    rw [hst]
    decide
  constructor
  · intro hreach h1 h2
    rw [PUT_reaches_apply user ok s body oid o hid hfind
      (fun hc => ⟨(hreach hc).1, hany, (hreach hc).2⟩)]
    exact (putApply_cancel_restore ok s body oid o hst h1 h2).1
  · intro h12
    rw [PUT_some_branch user ok s body oid o hid hfind]
    by_cases c1 : user.role = Role.customer ∧ o.userId ≠ user.uid
    · rw [if_pos c1]
    · rw [if_neg c1]
      by_cases c2 : user.role = Role.customer ∧
          body.status.any (fun st => st != OrderStatus.cancelled) = true
      · rw [if_pos c2]
      · rw [if_neg c2]
        by_cases c3 : user.role = Role.customer ∧ o.status ≠ OrderStatus.pending
        · rw [if_pos c3]
        · rw [if_neg c3]
          exact putApply_cancel_noop ok s body oid o hst h12

/-- Witness for the amended C5: a customer cancelling their own pending
order reaches the restore block. -/
theorem PUT_cancel_restore_once_witness :
    ((custUser.role = Role.customer →
        pendingOrder.userId = custUser.uid ∧ pendingOrder.status = OrderStatus.pending) →
      pendingOrder.status ≠ OrderStatus.cancelled →
      pendingOrder.status ≠ OrderStatus.cancelledAcknowledged →
      (PUT custUser true pendingState cancelBody).state.inventory
        = (restoreInventoryStock true pendingState.inventory
            pendingOrder.OrderContents).2) ∧
    (pendingOrder.status = OrderStatus.cancelled ∨
        pendingOrder.status = OrderStatus.cancelledAcknowledged →
      (PUT custUser true pendingState cancelBody).state.inventory
        = pendingState.inventory) :=
  PUT_cancel_restore_once custUser true pendingState cancelBody 1 pendingOrder
    rfl (by decide) rfl

/-- C7: for every caller — customer cancelling their own pending order, or
staff cancelling from any non-cancelled state — when the inventory restore
fails (the batched inventory write cannot be committed, modelled by
`restoreCommitOk = false`), the order's status is still changed to cancelled
and the call succeeds; the failure only surfaces in the log, and the
inventory is left unchanged by the failed atomic batch. -/
theorem PUT_cancel_despite_restore_failure (user : User) (s : DBState)
    (body : UpdateOrderRequest) (oid : Int) (o : Order)
    (hid : body.OrderID = some oid)
    (hfind : s.orders.find? (fun x => x.OrderID == oid) = some o)
    (hst : body.status = some OrderStatus.cancelled)
    (hreach : user.role = Role.customer →
      o.userId = user.uid ∧ o.status = OrderStatus.pending)
    (h1 : o.status ≠ OrderStatus.cancelled)
    (h2 : o.status ≠ OrderStatus.cancelledAcknowledged) :
    (PUT user false s body).res = PutResult.success oid ∧
    (∃ o2, (PUT user false s body).state.orders.find? (fun x => x.OrderID == oid)
        = some o2 ∧ o2.status = OrderStatus.cancelled) ∧
    (PUT user false s body).state.inventory = s.inventory ∧
    ("Failed to restore inventory for order " ++ toString oid ++ ": " ++
      "Failed to restore inventory stock.") ∈ (PUT user false s body).log := by
  have hany : body.status.any (fun st => st != OrderStatus.cancelled) = false := by
    rw [hst]
    decide
  rw [PUT_reaches_apply user false s body oid o hid hfind
    (fun hc => ⟨(hreach hc).1, hany, (hreach hc).2⟩)]
  obtain ⟨hres, horders⟩ := putApply_result false s body oid o (by simp [hst])
  obtain ⟨hinv, hlog⟩ := putApply_cancel_restore false s body oid o hst h1 h2
  obtain ⟨hrs, hre, hrdb⟩ := restore_commit_fail s.inventory o.OrderContents
  refine ⟨hres, ?_, by rw [hinv, hrdb], ?_⟩
  · rw [horders, find?_updateFirst s.orders oid (updateOrderFields body) (fun x => rfl),
      hfind]
    exact ⟨_, rfl, by simp [updateOrderFields, hst]⟩
  · have hmem := hlog hrs
    rw [hre] at hmem
    simpa using hmem

/-- Witness for C7: a customer cancelling their own pending order while the
restore commit fails — the cancellation still succeeds. -/
theorem PUT_cancel_despite_restore_failure_witness :
    (PUT custUser false pendingState cancelBody).res = PutResult.success 1 ∧
    (∃ o2, (PUT custUser false pendingState cancelBody).state.orders.find?
        (fun x => x.OrderID == 1) = some o2 ∧ o2.status = OrderStatus.cancelled) ∧
    (PUT custUser false pendingState cancelBody).state.inventory
      = pendingState.inventory ∧
    ("Failed to restore inventory for order " ++ toString (1 : Int) ++ ": " ++
      "Failed to restore inventory stock.")
      ∈ (PUT custUser false pendingState cancelBody).log :=
  PUT_cancel_despite_restore_failure custUser pendingState cancelBody 1
    pendingOrder rfl (by decide) rfl (fun _ => ⟨rfl, rfl⟩) (by decide) (by decide)

end ETuckShop
